import Mathlib

/-!
Verification of the ambit tensor library core against its specification.

The data model and the inline operators are embedded from
`src/include/tensor/tensor.h` and the HDF5 dataspace constructors from the
`dataspace` translation unit.  The kernel implementations (`contract`,
`permute`, `data()`, handle equality, and the labeled-assignment operators)
are declared in the header but their definitions are not part of the sources
here; those are modelled from the specification, as marked on each
definition.

Scalars (`double` in the source) are modelled as rationals extended with a
NaN element, so that the `beta == 0` overwrite semantics is observable.
-/

namespace Ambit

/-- A `double` value: either a finite rational or NaN.  NaN is absorbing for
the arithmetic, as in IEEE floating point. -/
inductive Val where
  | fin : ℚ → Val
  | nan : Val
deriving DecidableEq, Repr

/-- Addition on values; NaN absorbs. -/
def Val.add : Val → Val → Val
  | .fin a, .fin b => .fin (a + b)
  | _, _ => .nan

/-- Multiplication on values; NaN absorbs. -/
def Val.mul : Val → Val → Val
  | .fin a, .fin b => .fin (a * b)
  | _, _ => .nan

/-- Whether a value is finite (not NaN). -/
def Val.isFin : Val → Bool
  | .fin _ => true
  | .nan => false

/-- `enum TensorType` from tensor.h. -/
inductive TensorType where
  | kCurrent | kCore | kDisk | kDistributed | kAgnostic
deriving DecidableEq, Repr

/-- The error categories of the specification's error-handling design. -/
inductive TensorError where
  | shapeMismatch | labelMismatch | backendUnsupported
  | rangeOutOfBounds | planningFailure | allocationFailure
deriving DecidableEq, Repr

/-- `typedef std::vector<size_t> Dimension`. -/
abbrev Dimension := List ℕ

/-- `typedef std::vector<std::string> Indices`. -/
abbrev Indices := List String

/-- A Tensor handle: name, backend kind, shape, and the unrolled row-major
element buffer of the underlying storage.  `sid` identifies the underlying
storage object (the `shared_ptr<TensorImpl>` target), so that two handles
compare equal exactly when they share storage. -/
structure Tensor where
  name : String
  type : TensorType
  dims : Dimension
  store : List Val
  sid : ℕ
deriving DecidableEq, Repr

/-- Row-major offset of a multi-index: with the right-most dimension running
fastest, element `(i0, ..., i_{r-1})` sits at `sum_k i_k * prod_{j>k} n_j`. -/
def offsetOf : Dimension → List ℕ → ℕ
  | _ :: ds, i :: is => i * ds.foldr (· * ·) 1 + offsetOf ds is
  | _, _ => 0

/-- Element of a tensor at a multi-index (row-major unrolling). -/
def Tensor.at (t : Tensor) (idx : List ℕ) : Val :=
  t.store.getD (offsetOf t.dims idx) (Val.fin 0)

/-- `Tensor::zero()`: sets every element of the storage to zero. -/
def Tensor.zero (t : Tensor) : Tensor :=
  { t with store := t.store.map (fun _ => Val.fin 0) }

/-- Modelled from the spec: `Tensor::data()` (whose implementation is not in
the sources) returns the raw buffer only when the backend kind is in-core;
every other backend signals a backend-unsupported error. -/
def Tensor.data (t : Tensor) : Except TensorError (List Val) :=
  if t.type = TensorType.kCore then .ok t.store
  else .error TensorError.backendUnsupported

/-- Modelled from the spec: `Tensor::operator==` (whose implementation is not
in the sources) — two Tensors are equal iff they reference the same storage
object. -/
def Tensor.beq (a b : Tensor) : Bool := a.sid == b.sid

/-- Modelled from the spec: `Tensor::operator!=` is the negation of
`operator==`. -/
def Tensor.bne (a b : Tensor) : Bool := !(Tensor.beq a b)

/-- All multi-indices over a shape, odometer order (right-most fastest). -/
def allTuples : Dimension → List (List ℕ)
  | [] => [[]]
  | n :: rest => (List.range n).flatMap (fun i => (allTuples rest).map (i :: ·))

/-- Value bound to a label by an environment (association list). -/
def envLookup (env : List (String × ℕ)) (l : String) : ℕ :=
  (env.lookup l).getD 0

/-- Extent carried by a label in an index/shape pairing. -/
def lblExtent (inds : Indices) (dims : Dimension) (l : String) : ℕ :=
  ((inds.zip dims).lookup l).getD 0

/-- The contracted (internal) labels of a pairwise contraction: labels that
appear on the inputs but not on the output. -/
def contractedLabels (Cinds Ainds Binds : Indices) : Indices :=
  ((Ainds ++ Binds).filter (fun l => !(Cinds.contains l))).dedup

/-- Extent of a contracted label, read from whichever input carries it. -/
def cExtent (A B : Tensor) (Ainds Binds : Indices) (l : String) : ℕ :=
  if Ainds.contains l then lblExtent Ainds A.dims l else lblExtent Binds B.dims l

/-- Modelled from the spec: `Tensor::contract` (declared in tensor.h, body not
in the sources) — performs `C(Cinds) = alpha * A(Ainds) * B(Binds) +
beta * C(Cinds)`, summing over the labels that appear on the inputs but not
on the output.  When `beta == 0` the pre-existing contents of `C` are not
read: the target is semantically overwritten. -/
def Tensor.contract (C A B : Tensor) (Cinds Ainds Binds : Indices)
    (alpha beta : ℚ) : Tensor :=
  let clbls := contractedLabels Cinds Ainds Binds
  let exts := clbls.map (cExtent A B Ainds Binds)
  { C with store := (allTuples C.dims).map (fun cidx =>
      let base := Cinds.zip cidx
      let s := ((allTuples exts).map (fun t =>
          let env := base ++ clbls.zip t
          Val.mul (A.at (Ainds.map (envLookup env)))
                  (B.at (Binds.map (envLookup env))))).foldr Val.add (Val.fin 0)
      let v := Val.mul (Val.fin alpha) s
      if beta = 0 then v
      else Val.add v (Val.mul (Val.fin beta) (C.at cidx))) }

/-- Modelled from the spec: `Tensor::permute` (declared in tensor.h, body not
in the sources) — performs `C(Cinds) = alpha * A(Ainds) + beta * C(Cinds)`,
where `Cinds` is a relabeling of `Ainds`.  When `beta == 0` the pre-existing
contents of `C` are not read. -/
def Tensor.permute (C A : Tensor) (Cinds Ainds : Indices)
    (alpha beta : ℚ) : Tensor :=
  { C with store := (allTuples C.dims).map (fun cidx =>
      let env := Cinds.zip cidx
      let v := Val.mul (Val.fin alpha) (A.at (Ainds.map (envLookup env)))
      if beta = 0 then v
      else Val.add v (Val.mul (Val.fin beta) (C.at cidx))) }

/-- `class LabeledTensor` from tensor.h: a tensor handle, ordered index
labels, and a scalar factor. -/
structure LabeledTensor where
  T : Tensor
  indices : Indices
  factor : ℚ
deriving DecidableEq, Repr

/-- `LabeledTensor::operator-` (tensor.h, inline): negation returns
`LabeledTensor(T_, indices_, -factor_)`. -/
def LabeledTensor.neg (L : LabeledTensor) : LabeledTensor :=
  ⟨L.T, L.indices, -L.factor⟩

/-- `class LabeledTensorProduct` from tensor.h: an ordered sequence of
labeled tensors representing their product. -/
structure LabeledTensorProduct where
  tensors : List LabeledTensor
deriving DecidableEq, Repr

/-- The two-argument constructor of `LabeledTensorProduct`. -/
def LabeledTensorProduct.pair (A B : LabeledTensor) : LabeledTensorProduct :=
  ⟨[A, B]⟩

/-- `LabeledTensorProduct::size()`. -/
def LabeledTensorProduct.size (p : LabeledTensorProduct) : ℕ :=
  p.tensors.length

/-- `LabeledTensorProduct::operator*` (tensor.h, inline): pushes `other`
onto `tensors_` and returns `*this`; the returned value is the mutated
node itself. -/
def LabeledTensorProduct.mul (p : LabeledTensorProduct) (other : LabeledTensor) :
    LabeledTensorProduct :=
  ⟨p.tensors ++ [other]⟩

/-- `class LabeledTensorAddition` from tensor.h: an ordered sequence of
labeled tensors to be summed. -/
structure LabeledTensorAddition where
  tensors : List LabeledTensor
deriving DecidableEq, Repr

/-- The two-argument constructor of `LabeledTensorAddition`. -/
def LabeledTensorAddition.pair (A B : LabeledTensor) : LabeledTensorAddition :=
  ⟨[A, B]⟩

/-- `LabeledTensorAddition::size()`. -/
def LabeledTensorAddition.size (s : LabeledTensorAddition) : ℕ :=
  s.tensors.length

/-- `LabeledTensorAddition::operator+` (tensor.h, inline): pushes `other`
onto `tensors_` and returns `*this`. -/
def LabeledTensorAddition.add (s : LabeledTensorAddition) (other : LabeledTensor) :
    LabeledTensorAddition :=
  ⟨s.tensors ++ [other]⟩

/-- `LabeledTensorAddition::operator-` (tensor.h, inline): pushes `-other`
onto `tensors_` and returns `*this`. -/
def LabeledTensorAddition.sub (s : LabeledTensorAddition) (other : LabeledTensor) :
    LabeledTensorAddition :=
  ⟨s.tensors ++ [other.neg]⟩

/-- Decidable check that two label lists are permutations of each other. -/
def isPermOf (xs ys : Indices) : Bool :=
  (xs.length == ys.length) && xs.all (fun l => xs.count l == ys.count l)

/-- The assignment operators `=`, `+=`, `-=` of `LabeledTensor`. -/
inductive AssignOp where
  | eq | plusEq | minusEq
deriving DecidableEq, Repr

/-- A right-hand side of a labeled assignment: a single labeled tensor
(permute path) or a binary product of labeled tensors (contract path). -/
inductive RHS where
  | single : LabeledTensor → RHS
  | product : LabeledTensor → LabeledTensor → RHS
deriving DecidableEq, Repr

/-- Negate the top-level scalar factor of a right-hand side (used to lower
`-=` as `+=`). -/
def RHS.negFactor : RHS → RHS
  | .single L => .single L.neg
  | .product A B => .product A.neg B

/-- Modelled from the spec: validation of `Labeled <- Labeled` — the label
counts match the ranks, the source labels are a permutation of the target's,
and extents match under that permutation. -/
def validPermute (C : Tensor) (Cinds : Indices) (L : LabeledTensor) : Bool :=
  (Cinds.length == C.dims.length) &&
  (L.indices.length == L.T.dims.length) &&
  isPermOf Cinds L.indices &&
  Cinds.all (fun l => lblExtent Cinds C.dims l == lblExtent L.indices L.T.dims l)

/-- Modelled from the spec: validation of `Labeled <- Product` — label
counts match ranks; every target label appears exactly once across the two
inputs; no label appears more than twice across A, B, C combined; contracted
labels have consistent extents; target extents match the input carrying each
target label. -/
def validContract (C : Tensor) (Cinds : Indices) (A B : LabeledTensor) : Bool :=
  let Ainds := A.indices
  let Binds := B.indices
  (Cinds.length == C.dims.length) &&
  (Ainds.length == A.T.dims.length) &&
  (Binds.length == B.T.dims.length) &&
  Cinds.all (fun l => (Ainds ++ Binds).count l == 1) &&
  (Ainds ++ Binds).all (fun l => (Cinds ++ Ainds ++ Binds).count l <= 2) &&
  Ainds.all (fun l =>
    if Binds.contains l && !(Cinds.contains l) then
      lblExtent Ainds A.T.dims l == lblExtent Binds B.T.dims l
    else true) &&
  Cinds.all (fun l =>
    if Ainds.contains l then
      lblExtent Cinds C.dims l == lblExtent Ainds A.T.dims l
    else
      lblExtent Cinds C.dims l == lblExtent Binds B.T.dims l)

/-- Validation of an assignment right-hand side against the target. -/
def validRHS (C : Tensor) (Cinds : Indices) : RHS → Bool
  | .single L => validPermute C Cinds L
  | .product A B => validContract C Cinds A B

/-- The kernel call a validated right-hand side lowers to, with the
assignment's beta: a permute for a labeled tensor, a binary contract (with
the factors folded into alpha) for a product. -/
def applyRHS (C : Tensor) (Cinds : Indices) (r : RHS) (beta : ℚ) : Tensor :=
  match r with
  | .single L => Tensor.permute C L.T Cinds L.indices L.factor beta
  | .product A B =>
      Tensor.contract C A.T B.T Cinds A.indices B.indices (A.factor * B.factor) beta

/-- The kernel schedule of a labeled assignment, run unconditionally:
`=` uses beta 0, `+=` uses beta 1, `-=` negates the top-level factor and
lowers as `+=`. -/
def applyAssign (C : Tensor) (Cinds : Indices) (op : AssignOp) (r : RHS) : Tensor :=
  match op with
  | .eq => applyRHS C Cinds r 0
  | .plusEq => applyRHS C Cinds r 1
  | .minusEq => applyRHS C Cinds r.negFactor 1

/-- Modelled from the spec: the labeled assignment operators
(`LabeledTensor::operator=`, `+=`, `-=`; bodies not in the sources) —
validation happens at lowering time, before any kernel runs and before any
zeroing of the target; an invalid assignment signals an error and leaves the
target untouched, a valid one runs the kernel schedule.  Returns the error
signalled (if any) together with the final state of the target. -/
def assign (C : Tensor) (Cinds : Indices) (op : AssignOp) (r : RHS) :
    Option TensorError × Tensor :=
  if validRHS C Cinds r then (none, applyAssign C Cinds op r)
  else (some TensorError.labelMismatch, C)

/-- The `(rank, dims)` argument pair a Dataspace constructor passes to
`H5Screate_simple`. -/
structure H5SimpleArgs where
  rank : ℕ
  dims : Dimension
deriving DecidableEq, Repr

/-- `Dataspace::Dataspace(const Dimension&)` from the dataspace translation
unit: `assert(current_dims.size() > 0)` guards the construction (modelled as
`none` when the assertion fails), then the dimension list is passed to
`H5Screate_simple`. -/
def dataspaceOfDims (current_dims : Dimension) : Option H5SimpleArgs :=
  if current_dims.length > 0 then some ⟨current_dims.length, current_dims⟩
  else none

/-- `Dataspace::Dataspace(const Dimension&, const Dimension&)` from the
dataspace translation unit: asserts a non-empty current dimension list and
equal lengths, then passes the lists to `H5Screate_simple`. -/
def dataspaceOfDims2 (current_dims maximum_dims : Dimension) : Option H5SimpleArgs :=
  if current_dims.length > 0 && (current_dims.length == maximum_dims.length) then
    some ⟨current_dims.length, current_dims⟩
  else none

/-- `Dataspace::Dataspace(const Tensor&)` from the dataspace translation
unit: no rank check — the tensor's dimension list is passed straight to
`H5Screate_simple`, with `rank = tensor.dims().size()` (zero for a rank-0
tensor). -/
def dataspaceOfTensor (tensor : Tensor) : H5SimpleArgs :=
  ⟨tensor.dims.length, tensor.dims⟩

/-! Concrete tensors used by the scenario theorems and witnesses. -/

/-- The 2x2 matrix `A = [[1,2],[3,4]]` of the specification's matrix-multiply
scenario, stored row-major on the in-core backend. -/
def specA : Tensor := ⟨"A", .kCore, [2, 2], [.fin 1, .fin 2, .fin 3, .fin 4], 0⟩

/-- The 2x2 matrix `B = [[5,6],[7,8]]` of the matrix-multiply scenario. -/
def specB : Tensor := ⟨"B", .kCore, [2, 2], [.fin 5, .fin 6, .fin 7, .fin 8], 1⟩

/-- A 2x2 target tensor whose every element is NaN before assignment. -/
def nanTarget : Tensor := ⟨"C", .kCore, [2, 2], [.nan, .nan, .nan, .nan], 2⟩

/-- A disk-backed tensor (as in the header's unsuccessful `data()` example). -/
def diskTensor : Tensor := ⟨"B3", .kDisk, [4, 5, 6], [], 3⟩

/-- A rank-0 (scalar) tensor. -/
def scalarTensor : Tensor := ⟨"s", .kCore, [], [.fin 0], 4⟩

/-- A tensor with the same name, kind, shape and values as `twinB`, held by a
handle to a different storage object. -/
def twinA : Tensor := ⟨"T", .kCore, [2], [.fin 1, .fin 2], 10⟩

/-- A tensor with the same name, kind, shape and values as `twinA`, held by a
handle to a different storage object. -/
def twinB : Tensor := ⟨"T", .kCore, [2], [.fin 1, .fin 2], 11⟩

/-- A labeled right-hand side whose label count differs from the source
tensor's rank: assigning it to a 2-index target must fail validation. -/
def badRhs : RHS := .single ⟨specA, ["i"], 1⟩

/-! Helper lemmas about values and buffers. -/

lemma Val.add_fin_zero (v : Val) : Val.add v (Val.fin 0) = v := by
  cases v <;> simp [Val.add]

lemma Val.isFin_mul {a b : Val} (ha : a.isFin = true) (hb : b.isFin = true) :
    (Val.mul a b).isFin = true := by
  cases a <;> cases b <;> simp_all [Val.isFin, Val.mul]

lemma Val.isFin_add {a b : Val} (ha : a.isFin = true) (hb : b.isFin = true) :
    (Val.add a b).isFin = true := by
  cases a <;> cases b <;> simp_all [Val.isFin, Val.add]

lemma isFin_getD (l : List Val) (n : ℕ) (d : Val)
    (hl : ∀ x ∈ l, x.isFin = true) (hd : d.isFin = true) :
    (l.getD n d).isFin = true := by
  induction l generalizing n with
  | nil => exact hd
  | cons a t ih =>
    cases n with
    | zero => exact hl a (by simp)
    | succ m =>
      exact ih m (fun x hx => hl x (by simp [hx]))

lemma isFin_foldr_add (l : List Val) (hl : ∀ x ∈ l, x.isFin = true) :
    (l.foldr Val.add (Val.fin 0)).isFin = true := by
  induction l with
  | nil => rfl
  | cons a t ih =>
    exact Val.isFin_add (hl a (by simp)) (ih (fun x hx => hl x (by simp [hx])))

lemma getD_map_const_zero (l : List Val) (n : ℕ) :
    (l.map (fun _ => Val.fin 0)).getD n (Val.fin 0) = Val.fin 0 := by
  induction l generalizing n with
  | nil => rfl
  | cons a t ih =>
    cases n with
    | zero => rfl
    | succ m => exact ih m

lemma Tensor.zero_at (t : Tensor) (idx : List ℕ) :
    (t.zero).at idx = Val.fin 0 := by
  simp [Tensor.zero, Tensor.at, getD_map_const_zero]

lemma Tensor.isFin_at (t : Tensor) (idx : List ℕ)
    (h : t.store.all Val.isFin = true) : (t.at idx).isFin = true :=
  isFin_getD _ _ _ (List.all_eq_true.mp h) rfl

/-! ## C1: the matrix-multiply scenario -/

/-- C1.  With `A = [[1,2],[3,4]]` and `B = [[5,6],[7,8]]`, the assignment
`C("ij") = A("ik") * B("kj")` — equivalently `Tensor::contract` with
`Cinds = "ij"`, `Ainds = "ik"`, `Binds = "kj"`, `alpha = 1`, `beta = 0` —
writes exactly `C = [[19,22],[43,50]]` into the target tensor. -/
theorem matrix_multiply_scenario :
    (assign nanTarget ["i", "j"] AssignOp.eq
        (RHS.product ⟨specA, ["i", "k"], 1⟩ ⟨specB, ["k", "j"], 1⟩)).2.store
      = [Val.fin 19, Val.fin 22, Val.fin 43, Val.fin 50] ∧
    (Tensor.contract nanTarget specA specB
        ["i", "j"] ["i", "k"] ["k", "j"] 1 0).store
      = [Val.fin 19, Val.fin 22, Val.fin 43, Val.fin 50] := by
  have hC : ∀ alpha : ℚ, alpha = 1 →
      (Tensor.contract nanTarget specA specB
        ["i", "j"] ["i", "k"] ["k", "j"] alpha 0).store
      = [Val.fin 19, Val.fin 22, Val.fin 43, Val.fin 50] := by
    intro alpha ha
    subst ha
    simp only [Tensor.contract, contractedLabels, cExtent, allTuples, Tensor.at,
      offsetOf, envLookup, lblExtent, specA, specB, nanTarget, List.range,
      List.range.loop, List.flatMap, List.map, List.filter, List.dedup,
      List.zip, List.zipWith, List.lookup, List.foldr, List.getD, List.get?,
      List.append, Val.mul, Val.add, List.contains, List.elem, List.flatten,
      List.pairwise_cons]
    norm_num [Val.mul, Val.add]
  have hv : validRHS nanTarget ["i", "j"]
      (RHS.product ⟨specA, ["i", "k"], 1⟩ ⟨specB, ["k", "j"], 1⟩) = true := by
    decide
  refine ⟨?_, hC 1 rfl⟩
  simp only [assign, hv, if_pos, applyAssign, applyRHS]
  exact hC (1 * 1) (by norm_num)

/-! ## C2: beta = 0 never reads the target -/

/-- C2.  A `contract` or `permute` call with `beta = 0` semantically
overwrites the target without reading its prior contents: whatever the
target held before the call — every element NaN included — if every input
element is finite then no element of the result is NaN. -/
theorem beta0_overwrites_no_nan (C A B : Tensor)
    (Cinds Ainds Binds : Indices) (alpha : ℚ)
    (hA : A.store.all Val.isFin = true) (hB : B.store.all Val.isFin = true) :
    (Tensor.contract C A B Cinds Ainds Binds alpha 0).store.all Val.isFin = true ∧
    (Tensor.permute C A Cinds Ainds alpha 0).store.all Val.isFin = true := by
  constructor
  · rw [List.all_eq_true]
    intro x hx
    simp only [Tensor.contract, if_pos, List.mem_map] at hx
    obtain ⟨cidx, -, rfl⟩ := hx
    refine Val.isFin_mul rfl (isFin_foldr_add _ ?_)
    intro y hy
    obtain ⟨t, -, rfl⟩ := List.mem_map.mp hy
    exact Val.isFin_mul (A.isFin_at _ hA) (B.isFin_at _ hB)
  · rw [List.all_eq_true]
    intro x hx
    simp only [Tensor.permute, if_pos, List.mem_map] at hx
    obtain ⟨cidx, -, rfl⟩ := hx
    exact Val.isFin_mul rfl (A.isFin_at _ hA)

/-- Witness for C2: contracting and permuting the finite 2x2 matrices of the
matrix-multiply scenario into an all-NaN target with `beta = 0` yields
results with no NaN element. -/
theorem beta0_overwrites_no_nan_witness :
    (Tensor.contract nanTarget specA specB
        ["i", "j"] ["i", "k"] ["k", "j"] 1 0).store.all Val.isFin = true ∧
    (Tensor.permute nanTarget specA
        ["i", "j"] ["i", "k"] 1 0).store.all Val.isFin = true :=
  beta0_overwrites_no_nan nanTarget specA specB
    ["i", "j"] ["i", "k"] ["k", "j"] 1 (by decide) (by decide)

/-! ## C3: validation precedes execution -/

/-- C3.  A labeled assignment validates before any kernel runs and before any
zeroing of the target: if the assignment signals an error then every element
of the target is exactly as it was before, and if it signals none then the
full kernel schedule has been applied. -/
theorem assign_validates_before_kernels (C : Tensor) (Cinds : Indices)
    (op : AssignOp) (r : RHS) :
    ((assign C Cinds op r).1.isSome = true → (assign C Cinds op r).2 = C) ∧
    ((assign C Cinds op r).1 = none →
      (assign C Cinds op r).2 = applyAssign C Cinds op r) := by
  by_cases h : validRHS C Cinds r = true
  · simp [assign, h]
  · simp [assign, h]

/-- Witness for C3: assigning a rank-1-labeled view of `specA` to the 2-index
target fails validation and leaves the NaN-filled target untouched. -/
theorem assign_validates_before_kernels_witness :
    (assign nanTarget ["i", "j"] AssignOp.eq badRhs).2 = nanTarget :=
  (assign_validates_before_kernels nanTarget ["i", "j"] AssignOp.eq badRhs).1
    (by decide)

/-! ## C4: `=` is zeroing followed by `+=` -/

lemma validRHS_zero (C : Tensor) (Cinds : Indices) (r : RHS) :
    validRHS (C.zero) Cinds r = validRHS C Cinds r := rfl

lemma contract_beta0_eq_zero_beta1 (C A B : Tensor)
    (Cinds Ainds Binds : Indices) (alpha : ℚ) :
    Tensor.contract C A B Cinds Ainds Binds alpha 0
      = Tensor.contract (C.zero) A B Cinds Ainds Binds alpha 1 := by
  have hz : ∀ cidx : List ℕ, (C.zero).at cidx = Val.fin 0 := Tensor.zero_at C
  have hcollapse : ∀ s : List Val,
      ({C.zero with store := s} : Tensor) = {C with store := s} := fun _ => rfl
  have hdims : (C.zero).dims = C.dims := rfl
  simp only [Tensor.contract, hz, hdims, hcollapse]
  congr 1
  apply List.map_congr_left
  intro cidx _
  norm_num [Val.mul, Val.add_fin_zero]

lemma permute_beta0_eq_zero_beta1 (C A : Tensor)
    (Cinds Ainds : Indices) (alpha : ℚ) :
    Tensor.permute C A Cinds Ainds alpha 0
      = Tensor.permute (C.zero) A Cinds Ainds alpha 1 := by
  have hz : ∀ cidx : List ℕ, (C.zero).at cidx = Val.fin 0 := Tensor.zero_at C
  have hcollapse : ∀ s : List Val,
      ({C.zero with store := s} : Tensor) = {C with store := s} := fun _ => rfl
  have hdims : (C.zero).dims = C.dims := rfl
  simp only [Tensor.permute, hz, hdims, hcollapse]
  congr 1
  apply List.map_congr_left
  intro cidx _
  norm_num [Val.mul, Val.add_fin_zero]

/-- C4.  For every valid right-hand side, the state of the target after the
assignment `t = e` equals the state after first zeroing the target tensor and
then evaluating `t += e`. -/
theorem assign_eq_is_zero_then_plusEq (C : Tensor) (Cinds : Indices) (r : RHS)
    (h : validRHS C Cinds r = true) :
    (assign C Cinds AssignOp.eq r).2
      = (assign (C.zero) Cinds AssignOp.plusEq r).2 := by
  have h' : validRHS (C.zero) Cinds r = true := by rw [validRHS_zero]; exact h
  simp only [assign, h, h', if_pos, applyAssign]
  cases r with
  | single L => exact permute_beta0_eq_zero_beta1 C L.T Cinds L.indices L.factor
  | product A B =>
      exact contract_beta0_eq_zero_beta1 C A.T B.T Cinds A.indices B.indices
        (A.factor * B.factor)

/-- Witness for C4: on the matrix-multiply scenario, `C("ij") =
A("ik")*B("kj")` leaves the target in the same state as zeroing it and then
running `C("ij") += A("ik")*B("kj")`. -/
theorem assign_eq_is_zero_then_plusEq_witness :
    (assign nanTarget ["i", "j"] AssignOp.eq
        (RHS.product ⟨specA, ["i", "k"], 1⟩ ⟨specB, ["k", "j"], 1⟩)).2
      = (assign (nanTarget.zero) ["i", "j"] AssignOp.plusEq
        (RHS.product ⟨specA, ["i", "k"], 1⟩ ⟨specB, ["k", "j"], 1⟩)).2 :=
  assign_eq_is_zero_then_plusEq nanTarget ["i", "j"]
    (RHS.product ⟨specA, ["i", "k"], 1⟩ ⟨specB, ["k", "j"], 1⟩) (by decide)

/-! ## C5: buffer access is in-core only -/

/-- C5.  `Tensor::data()` succeeds exactly on the in-core backend: the call
returns the unrolled element buffer iff the tensor's kind is `kCore`, and on
any other backend it signals a backend-unsupported error. -/
theorem data_ok_iff_kCore (t : Tensor) :
    ((t.data).isOk = true ↔ t.type = TensorType.kCore) ∧
    (t.type ≠ TensorType.kCore →
      t.data = Except.error TensorError.backendUnsupported) := by
  constructor
  · by_cases h : t.type = TensorType.kCore <;>
      simp [Tensor.data, h, Except.isOk, Except.toBool]
  · intro h
    simp [Tensor.data, h]

/-- Witness for C5: the header's disk-backed example tensor signals a
backend-unsupported error from `data()`. -/
theorem data_ok_iff_kCore_witness :
    diskTensor.data = Except.error TensorError.backendUnsupported :=
  (data_ok_iff_kCore diskTensor).2 (by decide)

/-! ## C6: handle equality is storage identity -/

/-- C6.  `Tensor::operator==` compares storage identity: `a == b` iff the two
handles reference the same storage object; `!=` is its negation; two distinct
tensors that agree on name, kind, shape and element values still compare
unequal. -/
theorem tensor_eq_iff_same_storage :
    (∀ a b : Tensor, Tensor.beq a b = true ↔ a.sid = b.sid) ∧
    (∀ a b : Tensor, Tensor.bne a b = !(Tensor.beq a b)) ∧
    (twinA.name = twinB.name ∧ twinA.type = twinB.type ∧
      twinA.dims = twinB.dims ∧ twinA.store = twinB.store ∧
      Tensor.beq twinA twinB = false ∧ Tensor.bne twinA twinB = true) := by
  refine ⟨fun a b => ?_, fun a b => rfl, by decide⟩
  simp [Tensor.beq]

/-! ## C7: subtraction appends the negated term -/

/-- C7.  `LabeledTensorAddition::operator-` appends the negation: `S - L` is
the same node as `S + (-L)`; the prior terms are unchanged and the appended
term holds `L`'s tensor and labels with the factor negated. -/
theorem addition_sub_appends_negated (S : LabeledTensorAddition) (L : LabeledTensor) :
    S.sub L = S.add L.neg ∧
    (S.sub L).tensors.take S.tensors.length = S.tensors ∧
    (S.sub L).tensors.getLast? = some ⟨L.T, L.indices, -L.factor⟩ := by
  refine ⟨rfl, ?_, ?_⟩
  · exact List.take_left S.tensors [L.neg]
  · exact List.getLast?_concat S.tensors

/-! ## C9: product and addition append -/

/-- C9.  `LabeledTensorProduct::operator*` appends to the node itself: the
result is the product node updated in place, with size `n+1`, its first `n`
entries unchanged and its last entry the appended labeled tensor; likewise
`LabeledTensorAddition::operator+` and `operator-` append to the addition
node. -/
theorem product_append_in_place (p : LabeledTensorProduct)
    (s : LabeledTensorAddition) (L : LabeledTensor) :
    (p.mul L).size = p.size + 1 ∧
    (p.mul L).tensors.take p.size = p.tensors ∧
    (p.mul L).tensors.getLast? = some L ∧
    (p.mul L).tensors = p.tensors ++ [L] ∧
    (s.add L).size = s.size + 1 ∧
    (s.add L).tensors = s.tensors ++ [L] ∧
    (s.sub L).tensors = s.tensors ++ [L.neg] := by
  refine ⟨?_, ?_, ?_, rfl, ?_, rfl, rfl⟩
  · simp [LabeledTensorProduct.mul, LabeledTensorProduct.size]
  · exact List.take_left p.tensors [L]
  · exact List.getLast?_concat p.tensors
  · simp [LabeledTensorAddition.add, LabeledTensorAddition.size]

/-! ## C10: dataspace rank checking -/

/-- C10.  The `Dataspace` constructors taking a `Dimension` assert a
non-empty dimension sequence (a rank-0 shape is rejected at this interface),
while the constructor taking a `Tensor` performs no rank check and passes a
rank-0 tensor's empty dimension list straight to dataspace creation. -/
theorem dataspace_rank_checks :
    (dataspaceOfDims [] = none) ∧
    (dataspaceOfDims2 [] [] = none) ∧
    (∀ d : Dimension, 0 < d.length → dataspaceOfDims d = some ⟨d.length, d⟩) ∧
    (∀ t : Tensor, dataspaceOfTensor t = ⟨t.dims.length, t.dims⟩) ∧
    (∀ t : Tensor, t.dims = [] → dataspaceOfTensor t = ⟨0, []⟩) := by
  refine ⟨rfl, rfl, fun d hd => ?_, fun t => rfl, fun t ht => ?_⟩
  · simp [dataspaceOfDims, hd]
  · simp [dataspaceOfTensor, ht]

/-- Witness for C10: a non-empty shape is accepted with its length as the
rank, and a rank-0 tensor's empty dimension list is forwarded unchecked. -/
theorem dataspace_rank_checks_witness :
    dataspaceOfDims [4, 5] = some ⟨2, [4, 5]⟩ ∧
    dataspaceOfTensor scalarTensor = ⟨0, []⟩ :=
  ⟨dataspace_rank_checks.2.2.1 [4, 5] (by decide),
   dataspace_rank_checks.2.2.2.2 scalarTensor (by decide)⟩

end Ambit
